import Mathlib

/-!
Shallow embedding of the `gqlerr` Go package (Silicon-Ally/gqlerr):
a structured-error model for gqlgen-based GraphQL servers.  The embedding
translates `gqlerr.go` and the `codes` sub-package into pure Lean
definitions.  Go pointers/mutation are modelled by explicit state passing:
a function that mutates a `*Error` in Go returns the updated `Error` here.
The zap logger is modelled by its observable output: a list of log entries,
one per sink invocation, tagged with the sink method that was called.
-/

namespace Gqlerr

/-- The nine classification codes of package `codes` (string-valued tags).
`codes.Code` is `type Code string`, so an arbitrary string is a legal code;
we keep `String` as the carrier and define the nine constants. -/
abbrev Code := String

def invalidArgumentCode : Code := "invalid_argument"

def notFoundCode : Code := "not_found"

def alreadyExistsCode : Code := "already_exists"

def permissionDeniedCode : Code := "permission_denied"

def resourceExhaustedCode : Code := "resource_exhausted"

def failedPreconditionCode : Code := "failed_precondition"

def unimplementedCode : Code := "unimplemented"

def internalCode : Code := "internal"

def unauthenticatedCode : Code := "unauthenticated"

/-- The `logLevel` constants of `gqlerr.go` (`unsetLevel` through
`panicLevel`); these are the only `logLevel` values the program creates. -/
inductive LogLevel : Type where
  | unsetLevel
  | debugLevel
  | infoLevel
  | warnLevel
  | errorLevel
  | panicLevel
deriving DecidableEq, Repr

/-- An element of a gqlparser `ast.Path`: a field name or a list index. -/
inductive PathElem : Type where
  | name : String → PathElem
  | index : Int → PathElem
deriving DecidableEq, Repr

/-- Model of `ast.Path`, the request-path locator captured from the request context. -/
abbrev Path := List PathElem

/-- Model of `ast.Path.String()`: names are joined with `.` (no leading dot for the
first element), indexes render as `[i]` with no separating dot. -/
def pathStringAux : Nat → Path → String
  | _, [] => ""
  | i, PathElem.index n :: rest =>
      "[" ++ toString n ++ "]" ++ pathStringAux (i + 1) rest
  | i, PathElem.name s :: rest =>
      (if i = 0 then s else "." ++ s) ++ pathStringAux (i + 1) rest

def pathString (p : Path) : String := pathStringAux 0 p

/-- The `zapcore.FieldType` tags used by this package's field constructors. -/
inductive FieldType : Type where
  | stringType
  | int64Type
  | errorType
  | reflectType
deriving DecidableEq, Repr

mutual

/-- A Go `error` value as seen by this package: either a `*gqlerr.Error`,
a wrapping error (e.g. `fmt.Errorf` with `%w`, carrying its rendered
message and an `Unwrap`-reachable inner error), or a plain foreign error
carrying its dynamic type name and its `Error()` text. -/
inductive GoErr : Type where
  | gqlerr : Error → GoErr
  | wrap : String → GoErr → GoErr
  | basic : String → String → GoErr

/-- The `gqlerr.Error` struct: code, internal message, request path,
severity override, client-message override, structured fields, error ID. -/
inductive Error : Type where
  | mk : Code → String → Path → LogLevel → String → List Field → String → Error

/-- A `zap.Field`: key, type tag, and payload. -/
inductive Field : Type where
  | mk : String → FieldType → FieldValue → Field

/-- A `zap.Field` payload: the `String`, `Integer`, or `Interface` slot
actually populated by the field constructor. -/
inductive FieldValue : Type where
  | str : String → FieldValue
  | int : Int → FieldValue
  | err : GoErr → FieldValue
  | any : String → FieldValue

end

def Error.code : Error → Code
  | .mk c _ _ _ _ _ _ => c

def Error.msg : Error → String
  | .mk _ m _ _ _ _ _ => m

def Error.path : Error → Path
  | .mk _ _ p _ _ _ _ => p

def Error.level : Error → LogLevel
  | .mk _ _ _ l _ _ _ => l

def Error.clientMsg : Error → String
  | .mk _ _ _ _ cm _ _ => cm

def Error.fields : Error → List Field
  | .mk _ _ _ _ _ fs _ => fs

def Error.errorID : Error → String
  | .mk _ _ _ _ _ _ id => id

def Field.key : Field → String
  | .mk k _ _ => k

def Field.ftype : Field → FieldType
  | .mk _ t _ => t

def Field.value : Field → FieldValue
  | .mk _ _ v => v

/-- Model of `zap.String(key, val)`. -/
def zapString (k v : String) : Field := .mk k .stringType (.str v)

/-- Model of `zap.Int(key, val)` (stored in the Integer slot as `Int64Type`). -/
def zapInt (k : String) (v : Int) : Field := .mk k .int64Type (.int v)

/-- Model of `zap.Error(err)`: key `"error"`, type `ErrorType`, error in `Interface`. -/
def zapError (e : GoErr) : Field := .mk "error" .errorType (.err e)

/-- Model of `zap.Any(key, v)` for an arbitrary value, modelled by the value's
string form (the only thing the spec observes about it). -/
def zapAny (k v : String) : Field := .mk k .reflectType (.any v)

/-- The scan inside `(*Error).err()`: skip any field whose key is not
`"error"` or whose type is not `zapcore.ErrorType`, or whose `Interface`
payload is not an `error`; return the first embedded error found. -/
def errField : List Field → Option GoErr
  | [] => none
  | Field.mk k t v :: rest =>
      if k ≠ "error" ∨ t ≠ FieldType.errorType then errField rest
      else
        match v with
        | .err ge => some ge
        | .str _ => errField rest
        | .int _ => errField rest
        | .any _ => errField rest

/-- Method `(*Error).err()`: first embedded-cause field of the structured fields. -/
def Error.err : Error → Option GoErr
  | .mk _ _ _ _ _ fs _ => errField fs

theorem errField_sizeOf :
    ∀ (fs : List Field) (ge : GoErr), errField fs = some ge →
      sizeOf ge < sizeOf fs
  | [], ge => by intro h; simp [errField] at h
  | Field.mk k t v :: rest, ge => by
    intro h
    simp only [errField] at h
    split at h
    · have := errField_sizeOf rest ge h
      simp only [List.cons.sizeOf_spec]
      omega
    · cases v with
      | err ge0 =>
        simp only [Option.some.injEq] at h
        subst h
        simp only [List.cons.sizeOf_spec, Field.mk.sizeOf_spec,
          FieldValue.err.sizeOf_spec]
        omega
      | str s =>
        have := errField_sizeOf rest ge h
        simp only [List.cons.sizeOf_spec]
        omega
      | int i =>
        have := errField_sizeOf rest ge h
        simp only [List.cons.sizeOf_spec]
        omega
      | any s =>
        have := errField_sizeOf rest ge h
        simp only [List.cons.sizeOf_spec]
        omega

theorem err_sizeOf (e : Error) (ge : GoErr) (h : e.err = some ge) :
    sizeOf ge < sizeOf (GoErr.gqlerr e) := by
  cases e with
  | mk c m p l cm fs id =>
    have := errField_sizeOf fs ge h
    simp only [GoErr.gqlerr.sizeOf_spec, Error.mk.sizeOf_spec]
    omega

/-- One character of Go's `%q` string rendering; covers printable
characters (quote and backslash are escaped), which is all that the
classification codes this package quotes ever contain. -/
def goQuoteChar (c : Char) : String :=
  if c = '\\' then "\\\\"
  else if c = '"' then "\\\""
  else String.singleton c

/-- Go's `%q` verb on a string: double-quoted form. -/
def goQuote (s : String) : String :=
  "\"" ++ String.join (s.data.map goQuoteChar) ++ "\""

/-- The `Error()` text of a Go error.  For a `*gqlerr.Error` this is
`(*Error).Error()` from `gqlerr.go`: `fmt.Sprintf("[%q] %s", code, msg)`
without a cause, and `fmt.Sprintf("[%q] %s: %v", code, msg, cause)` with
one (`%v` on an error renders its own `Error()` text, recursively). -/
def goErrorString : GoErr → String
  | .basic _ m => m
  | .wrap m _ => m
  | .gqlerr e =>
    match h : e.err with
    | none => "[" ++ goQuote e.code ++ "] " ++ e.msg
    | some ge =>
        "[" ++ goQuote e.code ++ "] " ++ e.msg ++ ": " ++ goErrorString ge
termination_by ge => sizeOf ge
decreasing_by
  exact err_sizeOf e ge h

/-- Method `(*Error).Error()` (the `error` interface method on `*gqlerr.Error`). -/
def Error.errorString (e : Error) : String := goErrorString (GoErr.gqlerr e)

/-- The `defaultLevelForCode` map: Go map lookup returns the value and an
`ok` flag, modelled by `Option`. -/
def defaultLevelForCode (c : Code) : Option LogLevel :=
  if c = invalidArgumentCode then some .warnLevel
  else if c = notFoundCode then some .warnLevel
  else if c = alreadyExistsCode then some .warnLevel
  else if c = permissionDeniedCode then some .warnLevel
  else if c = resourceExhaustedCode then some .warnLevel
  else if c = failedPreconditionCode then some .warnLevel
  else if c = unimplementedCode then some .warnLevel
  else if c = internalCode then some .errorLevel
  else if c = unauthenticatedCode then some .warnLevel
  else none

/-- The `defaultMessageForCode` map. -/
def defaultMessageForCode (c : Code) : Option String :=
  if c = invalidArgumentCode then some "invalid argument"
  else if c = notFoundCode then some "not found"
  else if c = alreadyExistsCode then some "already exists"
  else if c = permissionDeniedCode then some "permission denied"
  else if c = resourceExhaustedCode then some "resource exhausted"
  else if c = failedPreconditionCode then some "failed precondition"
  else if c = unimplementedCode then some "unimplemented"
  else if c = internalCode then some "internal error"
  else if c = unauthenticatedCode then some "unauthenticated"
  else none

/-- Method `(*Error).logLevel()`: explicit level if set, else the default for the
code, else `errorLevel` for a code outside the map. -/
def Error.logLevel (e : Error) : LogLevel :=
  if e.level ≠ LogLevel.unsetLevel then e.level
  else
    match defaultLevelForCode e.code with
    | some l => l
    | none => .errorLevel

/-- Method `(*Error).clientMessage()`: explicit client message if non-empty, else
the map entry for the code.  Go map indexing without the `ok` flag yields
the zero value `""` for a code outside the map. -/
def Error.clientMessage (e : Error) : String :=
  if e.clientMsg ≠ "" then e.clientMsg
  else (defaultMessageForCode e.code).getD ""

/-- Method `(*Error).WithMessage`: sets `clientMsg`, returns the error. -/
def Error.WithMessage : Error → String → Error
  | .mk c m p l _ fs id, msg => .mk c m p l msg fs id

/-- Method `(*Error).WithErrorID`: sets `errorID`, returns the error. -/
def Error.WithErrorID : Error → String → Error
  | .mk c m p l cm fs _, id => .mk c m p l cm fs id

/-- Method `(*Error).AtDebug`: sets `level` to `debugLevel`, returns the error. -/
def Error.AtDebug : Error → Error
  | .mk c m p _ cm fs id => .mk c m p .debugLevel cm fs id

/-- Method `(*Error).AtInfo`: sets `level` to `infoLevel`, returns the error. -/
def Error.AtInfo : Error → Error
  | .mk c m p _ cm fs id => .mk c m p .infoLevel cm fs id

/-- Method `(*Error).AtWarn`: sets `level` to `warnLevel`, returns the error. -/
def Error.AtWarn : Error → Error
  | .mk c m p _ cm fs id => .mk c m p .warnLevel cm fs id

/-- Method `(*Error).AtError`: sets `level` to `errorLevel`, returns the error. -/
def Error.AtError : Error → Error
  | .mk c m p _ cm fs id => .mk c m p .errorLevel cm fs id

/-- Method `(*Error).AtPanic`: sets `level` to `panicLevel`, returns the error. -/
def Error.AtPanic : Error → Error
  | .mk c m p _ cm fs id => .mk c m p .panicLevel cm fs id

/-- Constructor `New(ctx, code, msg, fields...)`: the ambient request context is
modelled by the path locator `graphql.GetPath(ctx)` yields from it. -/
def New (ctx : Path) (code : Code) (msg : String) (fields : List Field) :
    Error :=
  .mk code msg ctx .unsetLevel "" fields ""

def Internal (ctx : Path) (msg : String) (fields : List Field) : Error :=
  New ctx internalCode msg fields

def InvalidArgument (ctx : Path) (msg : String) (fields : List Field) :
    Error :=
  New ctx invalidArgumentCode msg fields

def NotFound (ctx : Path) (msg : String) (fields : List Field) : Error :=
  New ctx notFoundCode msg fields

def AlreadyExists (ctx : Path) (msg : String) (fields : List Field) :
    Error :=
  New ctx alreadyExistsCode msg fields

def PermissionDenied (ctx : Path) (msg : String) (fields : List Field) :
    Error :=
  New ctx permissionDeniedCode msg fields

def ResourceExhausted (ctx : Path) (msg : String) (fields : List Field) :
    Error :=
  New ctx resourceExhaustedCode msg fields

def FailedPrecondition (ctx : Path) (msg : String) (fields : List Field) :
    Error :=
  New ctx failedPreconditionCode msg fields

def Unimplemented (ctx : Path) (msg : String) (fields : List Field) :
    Error :=
  New ctx unimplementedCode msg fields

def Unauthenticated (ctx : Path) (msg : String) (fields : List Field) :
    Error :=
  New ctx unauthenticatedCode msg fields

/-- Function `RecoverFunc(ctx, v)`.  `debug.Stack()` is ambient runtime state and is
passed in as the `stack` parameter; the recovered value `v` is modelled by
its string form (all `zap.Any` does with it here is record it). -/
def RecoverFunc (stack : String) (ctx : Path) (v : String) : GoErr :=
  .gqlerr ((Internal ctx stack [zapAny "recover" v]).AtPanic)

/-- Method `(*Error).extensions()`: a map with `code` always present and
`error_reason` present only when `errorID` is set; modelled as an
association list in that order. -/
def Error.extensions (e : Error) : List (String × String) :=
  [("code", e.code)] ++
    (if e.errorID ≠ "" then [("error_reason", e.errorID)] else [])

/-- Model of `gqlerror.Error`, the client-safe response fragment. -/
structure GQLError : Type where
  message : String
  path : Path
  extensions : List (String × String)
deriving Repr

/-- Method `(*Error).toGQLError()` on a non-nil receiver (absence of an error is
carried by `Option GQLError` at the call sites). -/
def Error.toGQLError (e : Error) : GQLError :=
  { message := e.clientMessage, path := e.path, extensions := e.extensions }

/-- The five zap sink methods the package invokes, plus which one
`logError` picks; `DPanic` logs at error severity in production and may
abort in development configurations. -/
inductive SinkLevel : Type where
  | debug
  | info
  | warn
  | error
  | dpanic
deriving DecidableEq, Repr

/-- One structured entry written to the log sink. -/
structure LogEntry : Type where
  sink : SinkLevel
  message : String
  fields : List Field

/-- The `switch err.logLevel()` of `logError`: the five named levels map to
their sinks, anything else (only `unsetLevel` here) hits the `default`
branch and logs at error. -/
def sinkFor : LogLevel → SinkLevel
  | .debugLevel => .debug
  | .infoLevel => .info
  | .warnLevel => .warn
  | .errorLevel => .error
  | .panicLevel => .dpanic
  | .unsetLevel => .error

def Error.setFields : Error → List Field → Error
  | .mk c m p l cm _ id, fs => .mk c m p l cm fs id

/-- Function `logError(logger, err)`: picks the sink from `err.logLevel()`, then —
when the path string is non-empty — reassigns `err.fields` to a copy with
a `gql_path` field prepended (this writes through the pointer, mutating
the caller's `Error`), and finally writes `err.msg` with `err.fields` to
the sink.  Returns the entry written and the post-call state of `err`. -/
def logError (e : Error) : LogEntry × Error :=
  let sink := sinkFor e.logLevel
  let e' :=
    if pathString e.path ≠ "" then
      e.setFields (zapString "gql_path" (pathString e.path) :: e.fields)
    else e
  ({ sink := sink, message := e'.msg, fields := e'.fields }, e')

/-- Model of `errors.As(err, &e)` with target type `*gqlerr.Error`: walk the unwrap
chain outermost-first and return the first `*gqlerr.Error` found.  Only
wrapping errors have an `Unwrap` method; `*gqlerr.Error` does not. -/
def errorsAs : GoErr → Option Error
  | .gqlerr e => some e
  | .wrap _ inner => errorsAs inner
  | .basic _ _ => none

mutual

/-- Go `==` comparison of two error values, as `errors.Is` performs it
(structural equality of the embedding; comparing a value with itself —
the "exact instance" case the spec talks about — always agrees with Go). -/
def goErrBeq : GoErr → GoErr → Bool
  | .gqlerr a, .gqlerr b => errorBeq a b
  | .wrap m a, .wrap n b => decide (m = n) && goErrBeq a b
  | .basic t m, .basic u n => decide (t = u) && decide (m = n)
  | _, _ => false

def errorBeq : Error → Error → Bool
  | .mk c m p l cm fs id, .mk c2 m2 p2 l2 cm2 fs2 id2 =>
      decide (c = c2) && decide (m = m2) && decide (p = p2) &&
        decide (l = l2) && decide (cm = cm2) && fieldsBeq fs fs2 &&
        decide (id = id2)

def fieldsBeq : List Field → List Field → Bool
  | [], [] => true
  | f :: fs, g :: gs => fieldBeq f g && fieldsBeq fs gs
  | _, _ => false

def fieldBeq : Field → Field → Bool
  | .mk k t v, .mk k2 t2 v2 =>
      decide (k = k2) && decide (t = t2) && fvBeq v v2

def fvBeq : FieldValue → FieldValue → Bool
  | .str a, .str b => decide (a = b)
  | .int a, .int b => decide (a = b)
  | .err a, .err b => goErrBeq a b
  | .any a, .any b => decide (a = b)
  | _, _ => false

end

mutual

theorem goErrBeq_refl : ∀ e, goErrBeq e e = true
  | .gqlerr a => by
    simp only [goErrBeq]
    exact errorBeq_refl a
  | .wrap m a => by
    simp [goErrBeq, goErrBeq_refl a]
  | .basic t m => by
    simp [goErrBeq]

theorem errorBeq_refl : ∀ e, errorBeq e e = true
  | .mk c m p l cm fs id => by
    simp [errorBeq, fieldsBeq_refl fs]

theorem fieldsBeq_refl : ∀ fs, fieldsBeq fs fs = true
  | [] => by simp [fieldsBeq]
  | f :: fs => by
    simp [fieldsBeq, fieldBeq_refl f, fieldsBeq_refl fs]

theorem fieldBeq_refl : ∀ f, fieldBeq f f = true
  | .mk k t v => by
    simp [fieldBeq, fvBeq_refl v]

theorem fvBeq_refl : ∀ v, fvBeq v v = true
  | .str a => by simp [fvBeq]
  | .int a => by simp [fvBeq]
  | .err a => by
    simp only [fvBeq]
    exact goErrBeq_refl a
  | .any a => by simp [fvBeq]

end

/-- Model of `errors.Is(err, target)`: compare, then follow `Unwrap`.  The only
errors with an `Unwrap` method here are wrapping errors; `*gqlerr.Error`
implements no `Unwrap`, so the walk stops at it. -/
def errorsIs (e target : GoErr) : Bool :=
  goErrBeq e target ||
    match e with
    | .wrap _ inner => errorsIs inner target
    | _ => false

/-- The dynamic type name `fmt.Sprintf("%T", err)` of an error. -/
def typeName : GoErr → String
  | .gqlerr _ => "*gqlerr.Error"
  | .wrap _ _ => "*fmt.wrapError"
  | .basic t _ => t

/-- The closure returned by `ErrorPresenter(logger)`, applied to a request
context (modelled by its path locator) and an optional error.  The log
sink's output is returned as the list of entries written. -/
def ErrorPresenter (ctx : Path) (err : Option GoErr) :
    List LogEntry × Option GQLError :=
  match err with
  | none => ([], none)
  | some ge =>
    match errorsAs ge with
    | some e =>
        let r := logError e
        ([r.1], some r.2.toGQLError)
    | none =>
        ([{ sink := .error,
            message := "received error that was not of type *gqlerr.Error",
            fields := [zapString "type" (typeName ge), zapError ge] }],
         some (Internal ctx (goErrorString ge) [zapError ge]).toGQLError)

/-- A request path is well formed when every name segment is non-empty
(GraphQL field names and aliases are never empty strings). -/
def wellFormedPath (p : Path) : Bool :=
  p.all fun e =>
    match e with
    | .name s => decide (s ≠ "")
    | .index _ => true

theorem length_pos_of_ne_empty (s : String) (h : s ≠ "") : 0 < s.length := by
  cases s with
  | mk data =>
    cases data with
    | nil => exact absurd rfl h
    | cons c cs => simp [String.length]

theorem pathStringAux_length_pos (i : Nat) (e : PathElem) (rest : Path)
    (hwf : wellFormedPath (e :: rest) = true) :
    0 < (pathStringAux i (e :: rest)).length := by
  cases e with
  | index n =>
    have h1 : ("[" : String).length = 1 := rfl
    simp only [pathStringAux, String.length_append]
    omega
  | name s =>
    have hs : s ≠ "" := by
      simp [wellFormedPath] at hwf
      exact hwf.1
    have h2 := length_pos_of_ne_empty s hs
    by_cases hi : i = 0
    · simp [pathStringAux, hi, String.length_append]
      omega
    · have h3 : ("." : String).length = 1 := rfl
      simp only [pathStringAux, if_neg hi, String.length_append]
      omega

theorem pathString_eq_empty_iff (p : Path)
    (hwf : wellFormedPath p = true) : pathString p = "" ↔ p = [] := by
  constructor
  · intro h
    cases p with
    | nil => rfl
    | cons e rest =>
      exfalso
      have hlen := congrArg String.length h
      rw [String.length_empty] at hlen
      have := pathStringAux_length_pos 0 e rest hwf
      simp only [pathString] at hlen
      omega
  · intro h
    subst h
    rfl

theorem Error.err_eq (e : Error) : e.err = errField e.fields := by
  cases e
  rfl

theorem errField_append_first (pre post : List Field) (c : GoErr)
    (hpre : errField pre = none) :
    errField (pre ++ zapError c :: post) = some c := by
  induction pre with
  | nil => simp [errField, zapError]
  | cons f rest ih =>
    cases f with
    | mk k t v =>
      simp only [List.cons_append, errField] at hpre ⊢
      split at hpre
      · rename_i hcond
        rw [if_pos hcond]
        exact ih hpre
      · rename_i hcond
        rw [if_neg hcond]
        cases v with
        | err ge => exact absurd hpre (by simp)
        | str s => exact ih hpre
        | int i => exact ih hpre
        | any s => exact ih hpre

theorem toGQLError_setFields (e : Error) (fs : List Field) :
    (e.setFields fs).toGQLError = e.toGQLError := by
  cases e
  rfl

/-- C3: each of the nine code-specific constructors produces an Error
value whose resolved severity, with no severity decoration applied, is the
code's table-defined default — warn for all codes except internal, which
defaults to error; and in general `logLevel()` returns the override when
set, else the table default for the code, else error for a code outside
the table. -/
theorem claim3_default_severities :
    (∀ (ctx : Path) (msg : String) (fs : List Field),
      (InvalidArgument ctx msg fs).logLevel = LogLevel.warnLevel ∧
      (NotFound ctx msg fs).logLevel = LogLevel.warnLevel ∧
      (AlreadyExists ctx msg fs).logLevel = LogLevel.warnLevel ∧
      (PermissionDenied ctx msg fs).logLevel = LogLevel.warnLevel ∧
      (ResourceExhausted ctx msg fs).logLevel = LogLevel.warnLevel ∧
      (FailedPrecondition ctx msg fs).logLevel = LogLevel.warnLevel ∧
      (Unimplemented ctx msg fs).logLevel = LogLevel.warnLevel ∧
      (Internal ctx msg fs).logLevel = LogLevel.errorLevel ∧
      (Unauthenticated ctx msg fs).logLevel = LogLevel.warnLevel) ∧
    ∀ e : Error,
      e.logLevel =
        if e.level ≠ LogLevel.unsetLevel then e.level
        else (defaultLevelForCode e.code).getD LogLevel.errorLevel := by
  constructor
  · exact fun ctx msg fs => ⟨rfl, rfl, rfl, rfl, rfl, rfl, rfl, rfl, rfl⟩
  · intro e
    by_cases h : e.level = LogLevel.unsetLevel
    · simp only [Error.logLevel, h]
      cases hd : defaultLevelForCode e.code <;> simp
    · simp [Error.logLevel, h]

/-- C5: each decoration operation (`WithMessage`, `WithErrorID`,
`AtDebug`, `AtInfo`, `AtWarn`, `AtError`, `AtPanic`) returns the input
value updated in exactly its own override field (all other fields are
untouched), repeated application is last-write-wins, and decorations on
distinct fields chain in any order. -/
theorem claim5_decorations (e : Error) (m m2 id id2 : String) :
    ((e.WithMessage m).WithMessage m2 = e.WithMessage m2 ∧
      (e.WithErrorID id).WithErrorID id2 = e.WithErrorID id2 ∧
      e.AtDebug.AtDebug = e.AtDebug ∧
      e.AtInfo.AtInfo = e.AtInfo ∧
      e.AtWarn.AtWarn = e.AtWarn ∧
      e.AtError.AtError = e.AtError ∧
      e.AtPanic.AtPanic = e.AtPanic) ∧
    ((e.WithMessage m).code = e.code ∧
      (e.WithMessage m).msg = e.msg ∧
      (e.WithMessage m).path = e.path ∧
      (e.WithMessage m).level = e.level ∧
      (e.WithMessage m).fields = e.fields ∧
      (e.WithMessage m).errorID = e.errorID ∧
      (e.WithMessage m).clientMsg = m) ∧
    ((e.WithErrorID id).code = e.code ∧
      (e.WithErrorID id).msg = e.msg ∧
      (e.WithErrorID id).path = e.path ∧
      (e.WithErrorID id).level = e.level ∧
      (e.WithErrorID id).clientMsg = e.clientMsg ∧
      (e.WithErrorID id).fields = e.fields ∧
      (e.WithErrorID id).errorID = id) ∧
    (e.AtDebug.code = e.code ∧ e.AtDebug.msg = e.msg ∧
      e.AtDebug.path = e.path ∧ e.AtDebug.clientMsg = e.clientMsg ∧
      e.AtDebug.fields = e.fields ∧ e.AtDebug.errorID = e.errorID ∧
      e.AtDebug.level = LogLevel.debugLevel) ∧
    (e.AtInfo.code = e.code ∧ e.AtInfo.msg = e.msg ∧
      e.AtInfo.path = e.path ∧ e.AtInfo.clientMsg = e.clientMsg ∧
      e.AtInfo.fields = e.fields ∧ e.AtInfo.errorID = e.errorID ∧
      e.AtInfo.level = LogLevel.infoLevel) ∧
    (e.AtWarn.code = e.code ∧ e.AtWarn.msg = e.msg ∧
      e.AtWarn.path = e.path ∧ e.AtWarn.clientMsg = e.clientMsg ∧
      e.AtWarn.fields = e.fields ∧ e.AtWarn.errorID = e.errorID ∧
      e.AtWarn.level = LogLevel.warnLevel) ∧
    (e.AtError.code = e.code ∧ e.AtError.msg = e.msg ∧
      e.AtError.path = e.path ∧ e.AtError.clientMsg = e.clientMsg ∧
      e.AtError.fields = e.fields ∧ e.AtError.errorID = e.errorID ∧
      e.AtError.level = LogLevel.errorLevel) ∧
    (e.AtPanic.code = e.code ∧ e.AtPanic.msg = e.msg ∧
      e.AtPanic.path = e.path ∧ e.AtPanic.clientMsg = e.clientMsg ∧
      e.AtPanic.fields = e.fields ∧ e.AtPanic.errorID = e.errorID ∧
      e.AtPanic.level = LogLevel.panicLevel) ∧
    ((e.WithMessage m).WithErrorID id = (e.WithErrorID id).WithMessage m ∧
      (e.WithMessage m).AtDebug = e.AtDebug.WithMessage m ∧
      (e.WithMessage m).AtInfo = e.AtInfo.WithMessage m ∧
      (e.WithMessage m).AtWarn = e.AtWarn.WithMessage m ∧
      (e.WithMessage m).AtError = e.AtError.WithMessage m ∧
      (e.WithMessage m).AtPanic = e.AtPanic.WithMessage m ∧
      (e.WithErrorID id).AtDebug = e.AtDebug.WithErrorID id ∧
      (e.WithErrorID id).AtInfo = e.AtInfo.WithErrorID id ∧
      (e.WithErrorID id).AtWarn = e.AtWarn.WithErrorID id ∧
      (e.WithErrorID id).AtError = e.AtError.WithErrorID id ∧
      (e.WithErrorID id).AtPanic = e.AtPanic.WithErrorID id) := by
  cases e
  simp [Error.WithMessage, Error.WithErrorID, Error.AtDebug, Error.AtInfo,
    Error.AtWarn, Error.AtError, Error.AtPanic, Error.code, Error.msg,
    Error.path, Error.level, Error.clientMsg, Error.fields, Error.errorID]

/-- C10: `RecoverFunc(ctx, v)` (with the captured `debug.Stack()` text
passed as `stack`) returns an Internal-coded Error value whose internal
message is the stack-trace text, whose fields are exactly the
`recover: <string form of v>` field, and whose resolved severity is
panic. -/
theorem claim10_recover (stack : String) (ctx : Path) (v : String) :
    RecoverFunc stack ctx v =
      GoErr.gqlerr ((Internal ctx stack [zapAny "recover" v]).AtPanic) ∧
    errorsAs (RecoverFunc stack ctx v) =
      some ((Internal ctx stack [zapAny "recover" v]).AtPanic) ∧
    ((Internal ctx stack [zapAny "recover" v]).AtPanic).code = internalCode ∧
    ((Internal ctx stack [zapAny "recover" v]).AtPanic).msg = stack ∧
    ((Internal ctx stack [zapAny "recover" v]).AtPanic).fields =
      [zapAny "recover" v] ∧
    ((Internal ctx stack [zapAny "recover" v]).AtPanic).logLevel =
      LogLevel.panicLevel :=
  ⟨rfl, rfl, rfl, rfl, rfl, rfl⟩

/-- C6 fails as stated: `cause()` does return the embedded instance, but
cause-chain comparison does not succeed *through* the Error value, because
`*gqlerr.Error` implements no `Unwrap`: `errors.Is` on an Error value
embedding the cause `gqlerr.randomError{"a random error"}` returns
false. -/
theorem claim6_counterexample :
    (Internal [] "some error"
        [zapError (GoErr.basic "gqlerr.randomError" "a random error")]).err =
      some (GoErr.basic "gqlerr.randomError" "a random error") ∧
    errorsIs
      (GoErr.gqlerr (Internal [] "some error"
        [zapError (GoErr.basic "gqlerr.randomError" "a random error")]))
      (GoErr.basic "gqlerr.randomError" "a random error") = false := by
  constructor
  · rfl
  · simp [errorsIs, goErrBeq]

/-- C6 amended: for any Error value whose fields are an error-free prefix,
then an embedded-cause field, then anything, `err()` returns exactly that
embedded instance, and cause-chain comparison against that instance
succeeds when started from the extracted cause itself; comparison started
from the Error value does not unwrap into the fields — it reduces to
direct equality with the target. -/
theorem claim6_cause_roundtrip (e : Error) (pre post : List Field)
    (c : GoErr) (hpre : errField pre = none)
    (hfs : e.fields = pre ++ zapError c :: post) :
    e.err = some c ∧
    errorsIs c c = true ∧
    errorsIs (GoErr.gqlerr e) c = goErrBeq (GoErr.gqlerr e) c := by
  refine ⟨?_, ?_, ?_⟩
  · rw [Error.err_eq, hfs]
    exact errField_append_first pre post c hpre
  · cases c <;> simp [errorsIs, goErrBeq_refl]
  · simp [errorsIs]

theorem claim6_cause_roundtrip_witness :
    (Internal [] "some error"
        [zapError (GoErr.basic "gqlerr.randomError" "a random error")]).err =
      some (GoErr.basic "gqlerr.randomError" "a random error") ∧
    errorsIs (GoErr.basic "gqlerr.randomError" "a random error")
      (GoErr.basic "gqlerr.randomError" "a random error") = true ∧
    errorsIs
      (GoErr.gqlerr (Internal [] "some error"
        [zapError (GoErr.basic "gqlerr.randomError" "a random error")]))
      (GoErr.basic "gqlerr.randomError" "a random error") =
      goErrBeq
        (GoErr.gqlerr (Internal [] "some error"
          [zapError (GoErr.basic "gqlerr.randomError" "a random error")]))
        (GoErr.basic "gqlerr.randomError" "a random error") :=
  claim6_cause_roundtrip _ [] [] _ rfl rfl

/-- C7 fails as stated: `(*Error).Error()` renders the code with `%q`, so
the text is `["<code>"] <msg>` — the code is wrapped in double quotes —
not `[<code>] <msg>`.  Concretely, an internal error with message "boom"
renders with quotes around `internal`. -/
theorem claim7_counterexample :
    Error.errorString (New [] internalCode "boom" []) ≠ "[internal] boom" ∧
    Error.errorString (New [] internalCode "boom" []) =
      "[\"internal\"] boom" := by
  have h : Error.errorString (New [] internalCode "boom" []) =
      "[\"internal\"] boom" := by
    rw [Error.errorString, goErrorString]
    simp only [Error.err, errField, New, Error.code, Error.msg]
    decide
  exact ⟨by rw [h]; decide, h⟩

/-- C7 amended: rendering an Error value as text yields
`[<%q-quoted code>] <internal message>` when no cause is present, and the
same text suffixed with `: <cause text>` when a cause is present (the code
is rendered double-quoted by the `%q` verb). -/
theorem claim7_error_text (e : Error) :
    (e.err = none →
      e.errorString = "[" ++ goQuote e.code ++ "] " ++ e.msg) ∧
    ∀ c, e.err = some c →
      e.errorString =
        "[" ++ goQuote e.code ++ "] " ++ e.msg ++ ": " ++ goErrorString c := by
  constructor
  · intro h
    rw [Error.errorString, goErrorString]
    split
    · rfl
    · rename_i ge heq
      rw [h] at heq
      cases heq
  · intro c h
    rw [Error.errorString, goErrorString]
    split
    · rename_i heq
      rw [h] at heq
      cases heq
    · rename_i ge heq
      rw [h] at heq
      injection heq with h2
      subst h2
      rfl

theorem claim7_error_text_witness :
    (New [] internalCode "boom" []).errorString =
      "[" ++ goQuote internalCode ++ "] " ++ "boom" ∧
    (New [] internalCode "oops"
        [zapError (GoErr.basic "*errors.errorString" "the cause")]).errorString =
      "[" ++ goQuote internalCode ++ "] " ++ "oops" ++ ": " ++
        goErrorString (GoErr.basic "*errors.errorString" "the cause") :=
  ⟨(claim7_error_text _).1 rfl, (claim7_error_text _).2 _ rfl⟩

/-- C8 fails as stated: resolution is total and an out-of-table code does
resolve to error severity, but the resolved client message for an
out-of-table code is the Go map zero value `""`, not the internal default
client message `"internal error"`. -/
theorem claim8_counterexample :
    (New [] "bogus_code" "m" []).clientMessage = "" ∧
    (New [] "bogus_code" "m" []).clientMessage ≠ "internal error" ∧
    (New [] "bogus_code" "m" []).logLevel = LogLevel.errorLevel := by
  refine ⟨rfl, ?_, rfl⟩
  decide

/-- C8 amended: client-message and severity resolution are total for every
Error value: the client message is the override when non-empty, else the
code's table default, which is the empty string (not the internal default
message) for a code outside the table; severity for an out-of-table code
with no override resolves to error. -/
theorem claim8_resolution_total (e : Error) :
    (e.clientMsg ≠ "" → e.clientMessage = e.clientMsg) ∧
    (e.clientMsg = "" →
      e.clientMessage = (defaultMessageForCode e.code).getD "") ∧
    (defaultMessageForCode e.code = none → e.clientMsg = "" →
      e.clientMessage = "") ∧
    (defaultLevelForCode e.code = none → e.level = LogLevel.unsetLevel →
      e.logLevel = LogLevel.errorLevel) := by
  refine ⟨?_, ?_, ?_, ?_⟩
  · intro h
    simp [Error.clientMessage, h]
  · intro h
    simp [Error.clientMessage, h]
  · intro hm h
    simp [Error.clientMessage, h, hm]
  · intro hl h
    simp [Error.logLevel, h, hl]

theorem claim8_resolution_total_witness :
    ((New [] "bogus_code" "m" []).clientMessage =
      (defaultMessageForCode (New [] "bogus_code" "m" []).code).getD "") ∧
    (New [] "bogus_code" "m" []).clientMessage = "" ∧
    (New [] "bogus_code" "m" []).logLevel = LogLevel.errorLevel :=
  ⟨(claim8_resolution_total _).2.1 rfl,
   (claim8_resolution_total _).2.2.1 rfl rfl,
   (claim8_resolution_total _).2.2.2 rfl rfl⟩

theorem setFields_code (e : Error) (fs : List Field) :
    (e.setFields fs).code = e.code := by
  cases e
  rfl

theorem setFields_msg (e : Error) (fs : List Field) :
    (e.setFields fs).msg = e.msg := by
  cases e
  rfl

theorem setFields_path (e : Error) (fs : List Field) :
    (e.setFields fs).path = e.path := by
  cases e
  rfl

theorem setFields_level (e : Error) (fs : List Field) :
    (e.setFields fs).level = e.level := by
  cases e
  rfl

theorem setFields_clientMsg (e : Error) (fs : List Field) :
    (e.setFields fs).clientMsg = e.clientMsg := by
  cases e
  rfl

theorem setFields_errorID (e : Error) (fs : List Field) :
    (e.setFields fs).errorID = e.errorID := by
  cases e
  rfl

theorem setFields_fields (e : Error) (fs : List Field) :
    (e.setFields fs).fields = fs := by
  cases e
  rfl

/-- C1: for an input error whose unwrap chain contains no `*gqlerr.Error`,
the presenter writes exactly one error-severity entry with the message
`received error that was not of type *gqlerr.Error` and fields
`{type: <dynamic type name>, error: <the original error>}`, and returns a
fragment with message `internal error` and extensions
`{code: internal}`. -/
theorem claim1_presenter_foreign (ctx : Path) (ge : GoErr)
    (h : errorsAs ge = none) :
    ErrorPresenter ctx (some ge) =
      ([{ sink := SinkLevel.error,
          message := "received error that was not of type *gqlerr.Error",
          fields := [zapString "type" (typeName ge), zapError ge] }],
       some { message := "internal error",
              path := ctx,
              extensions := [("code", internalCode)] }) := by
  simp [ErrorPresenter, h, Error.toGQLError, Internal, New,
    Error.clientMessage, Error.clientMsg, Error.code, Error.path,
    Error.errorID, Error.extensions, defaultMessageForCode, internalCode,
    invalidArgumentCode, notFoundCode, alreadyExistsCode,
    permissionDeniedCode, resourceExhaustedCode, failedPreconditionCode,
    unimplementedCode, unauthenticatedCode]

theorem claim1_presenter_foreign_witness :
    ErrorPresenter [] (some (GoErr.basic "gqlerr.randomError" "a random error")) =
      ([{ sink := SinkLevel.error,
          message := "received error that was not of type *gqlerr.Error",
          fields :=
            [zapString "type" (typeName (GoErr.basic "gqlerr.randomError" "a random error")),
             zapError (GoErr.basic "gqlerr.randomError" "a random error")] }],
       some { message := "internal error",
              path := [],
              extensions := [("code", internalCode)] }) :=
  claim1_presenter_foreign [] _ rfl

/-- C2: for an input error that resolves (outermost-first through the
unwrap chain) to an Error value with a well-formed request path, the
presenter writes exactly one entry via the sink method matching the
resolved severity, with the Error value's internal message, and with its
structured fields prepended by one `gql_path` field exactly when the
captured request path is non-empty; it returns that value's client
response fragment.  The sink mapping sends debug/info/warn/error to the
same-named methods, panic to DPanic, and unset to error. -/
theorem claim2_presenter_resolved (ctx : Path) (ge : GoErr) (e : Error)
    (h : errorsAs ge = some e) (hwf : wellFormedPath e.path = true) :
    (ErrorPresenter ctx (some ge) =
      ([{ sink := sinkFor e.logLevel,
          message := e.msg,
          fields :=
            if pathString e.path ≠ "" then
              zapString "gql_path" (pathString e.path) :: e.fields
            else e.fields }],
       some e.toGQLError)) ∧
    (pathString e.path ≠ "" ↔ e.path ≠ []) ∧
    sinkFor LogLevel.debugLevel = SinkLevel.debug ∧
    sinkFor LogLevel.infoLevel = SinkLevel.info ∧
    sinkFor LogLevel.warnLevel = SinkLevel.warn ∧
    sinkFor LogLevel.errorLevel = SinkLevel.error ∧
    sinkFor LogLevel.panicLevel = SinkLevel.dpanic ∧
    sinkFor LogLevel.unsetLevel = SinkLevel.error := by
  refine ⟨?_, not_congr (pathString_eq_empty_iff e.path hwf), rfl, rfl, rfl,
    rfl, rfl, rfl⟩
  simp only [ErrorPresenter, h]
  by_cases hp : pathString e.path = ""
  · simp [logError, hp]
  · simp [logError, hp, toGQLError_setFields, setFields_msg,
      setFields_fields]

theorem claim2_presenter_resolved_witness :
    (ErrorPresenter []
        (some (GoErr.gqlerr (Internal [PathElem.name "a"] "m" []))) =
      ([{ sink := sinkFor (Internal [PathElem.name "a"] "m" []).logLevel,
          message := (Internal [PathElem.name "a"] "m" []).msg,
          fields :=
            if pathString (Internal [PathElem.name "a"] "m" []).path ≠ "" then
              zapString "gql_path"
                  (pathString (Internal [PathElem.name "a"] "m" []).path) ::
                (Internal [PathElem.name "a"] "m" []).fields
            else (Internal [PathElem.name "a"] "m" []).fields }],
       some (Internal [PathElem.name "a"] "m" []).toGQLError)) ∧
    (pathString (Internal [PathElem.name "a"] "m" []).path ≠ "" ↔
      (Internal [PathElem.name "a"] "m" []).path ≠ []) ∧
    sinkFor LogLevel.debugLevel = SinkLevel.debug ∧
    sinkFor LogLevel.infoLevel = SinkLevel.info ∧
    sinkFor LogLevel.warnLevel = SinkLevel.warn ∧
    sinkFor LogLevel.errorLevel = SinkLevel.error ∧
    sinkFor LogLevel.panicLevel = SinkLevel.dpanic ∧
    sinkFor LogLevel.unsetLevel = SinkLevel.error :=
  claim2_presenter_resolved [] _ _ rfl rfl

/-- C4: the presenter is total and never fails: given an absent error it
writes no log entry and returns an absent fragment, and given a present
error (its only other input shape) it writes exactly one log entry and
returns exactly one populated fragment. -/
theorem claim4_presenter_total (ctx : Path) :
    ErrorPresenter ctx none = ([], none) ∧
    ∀ ge : GoErr,
      (ErrorPresenter ctx (some ge)).1.length = 1 ∧
      (ErrorPresenter ctx (some ge)).2.isSome = true := by
  refine ⟨rfl, fun ge => ?_⟩
  unfold ErrorPresenter
  cases h : errorsAs ge <;> simp [h]

/-- C9 fails as stated: presenting an Error value whose request path is
non-empty mutates it — `logError` reassigns `err.fields` to a copy with a
`gql_path` field prepended, so after the call the structured-fields
sequence differs from what the handler's decorations produced. -/
theorem claim9_counterexample :
    (logError (Internal [PathElem.name "muffins"] "m" [])).2.fields ≠
      (Internal [PathElem.name "muffins"] "m" []).fields ∧
    (logError (Internal [PathElem.name "muffins"] "m" [])).2.fields =
      [zapString "gql_path" "muffins"] ∧
    (Internal [PathElem.name "muffins"] "m" []).fields = [] := by
  have h2 : (logError (Internal [PathElem.name "muffins"] "m" [])).2.fields =
      [zapString "gql_path" "muffins"] := by
    simp [logError, Internal, New, pathString, pathStringAux,
      Error.setFields, Error.path, Error.fields, Error.logLevel,
      zapString]
  refine ⟨?_, h2, rfl⟩
  rw [h2]
  intro hcontra
  exact absurd (congrArg List.length hcontra) (by simp [Internal, New,
    Error.fields])

/-- C9 amended: consuming an Error value through `logError` never changes
its code, internal message, request path, severity override, client
message, error ID, or its client response fragment; its structured-fields
sequence is unchanged exactly when the request path renders as the empty
string, and otherwise is the original sequence with one `gql_path` field
prepended (a mutation visible to the handler's copy). -/
theorem claim9_frame (e : Error) :
    ((logError e).2.code = e.code ∧
      (logError e).2.msg = e.msg ∧
      (logError e).2.path = e.path ∧
      (logError e).2.level = e.level ∧
      (logError e).2.clientMsg = e.clientMsg ∧
      (logError e).2.errorID = e.errorID ∧
      (logError e).2.toGQLError = e.toGQLError) ∧
    (pathString e.path = "" → (logError e).2.fields = e.fields) ∧
    (pathString e.path ≠ "" →
      (logError e).2.fields =
        zapString "gql_path" (pathString e.path) :: e.fields) := by
  by_cases hp : pathString e.path = ""
  · simp [logError, hp]
  · simp [logError, hp, setFields_code, setFields_msg, setFields_path,
      setFields_level, setFields_clientMsg, setFields_errorID,
      setFields_fields, toGQLError_setFields]

theorem claim9_frame_witness :
    ((logError (Internal [] "m" [])).2.fields =
      (Internal [] "m" []).fields) ∧
    (logError (Internal [PathElem.name "a"] "m" [])).2.fields =
      zapString "gql_path"
          (pathString (Internal [PathElem.name "a"] "m" []).path) ::
        (Internal [PathElem.name "a"] "m" []).fields :=
  ⟨(claim9_frame _).2.1 rfl,
   (claim9_frame _).2.2 (by decide)⟩

end Gqlerr
